import Mathlib

/-!
Verification of the emteeayy transit aggregator core against its design
specification.  The Go source is embedded shallowly: machine time is modelled
as `Int` epoch seconds, Go maps keyed by `string` as association lists with
overwrite-on-insert, fallible operations as `Except`/`Option`, and the HTTP
fetch layer as an explicit environment `String → Except String FeedMessage`
mapping a feed name to its fetched-and-decoded payload (or a failure).
-/

/- ### TTL cache (internal/cache) -/

/-- Entry of the TTL cache: `item[T]` from the cache package, a value together
with its absolute expiration time. -/
structure CacheItem (V : Type) where
  value : V
  expiresAt : Int
deriving DecidableEq, Repr

/-- The generic TTL cache `Cache[T]`.  The Go `map[string]item[T]` is an
association list; `stopClosed` records whether the `stop` channel has been
closed (by `Close`). -/
structure Cache (V : Type) where
  items : List (String × CacheItem V)
  ttl : Int
  stopClosed : Bool
deriving DecidableEq, Repr

/-- Fresh cache as built by `cache.New`: empty map, open stop channel. -/
def Cache.new (V : Type) (ttl : Int) : Cache V :=
  { items := [], ttl := ttl, stopClosed := false }

/-- Overwrite-insert into an association list, modelling Go map assignment
`m[k] = v`. -/
def mapInsert {α : Type} (k : String) (v : α) : List (String × α) → List (String × α)
  | [] => [(k, v)]
  | (k', v') :: rest => if k' = k then (k, v) :: rest else (k', v') :: mapInsert k v rest

/-- Model of `Cache.Get`: a lookup misses if the key is absent or
`time.Now().After(item.expiresAt)` holds, i.e. strictly after expiration.
Returns `some value` exactly when Go returns `(value, true)`. -/
def Cache.get {V : Type} (c : Cache V) (now : Int) (key : String) : Option V :=
  match c.items.lookup key with
  | none => none
  | some it => if now > it.expiresAt then none else some it.value

/-- Model of `Cache.Set`: stores the value with expiration `now + ttl`,
unconditionally overwriting any prior entry. -/
def Cache.set {V : Type} (c : Cache V) (now : Int) (key : String) (v : V) : Cache V :=
  { c with items := mapInsert key { value := v, expiresAt := now + c.ttl } c.items }

/-- Model of `Cache.removeExpired`: drops every entry with
`now.After(expiresAt)`. -/
def Cache.removeExpired {V : Type} (c : Cache V) (now : Int) : Cache V :=
  { c with items := c.items.filter (fun kv => !(now > kv.2.expiresAt)) }

/-- Model of `Cache.Close`, which executes `close(c.stop)`.  Go panics when a
channel is closed twice, so the result is `none` (abnormal termination) when
the stop channel is already closed, and `some` of the closed cache otherwise. -/
def Cache.close {V : Type} (c : Cache V) : Option (Cache V) :=
  if c.stopClosed then none else some { c with stopClosed := true }

/-- Model of one tick of the `cleanup` goroutine: after `Close` the goroutine
has returned, so a tick does nothing; otherwise it runs `removeExpired`. -/
def Cache.sweepTick {V : Type} (c : Cache V) (now : Int) : Cache V :=
  if c.stopClosed then c else c.removeExpired now

theorem lookup_mapInsert_self {α : Type} (k : String) (v : α) :
    ∀ l : List (String × α), (mapInsert k v l).lookup k = some v := by
  intro l
  induction l with
  | nil => simp [mapInsert, List.lookup]
  | cons hd tl ih =>
    obtain ⟨k', v'⟩ := hd
    by_cases h : k' = k
    · simp [mapInsert, h, List.lookup]
    · have hne : ¬ (k == k') := by
        simp only [beq_iff_eq]
        exact fun hc => h hc.symm
      simp [mapInsert, h, List.lookup, hne, ih]

/-- C1: amended cache contract.  `Set(k,v)` at time `t0` followed by `Get(k)`
at any time `t` strictly within the TTL returns `(v, true)`; `Get` returns
`found=false` whenever the key is absent or the current time is strictly
after the stored entry's expiration, even before any sweep. -/
theorem cache_set_get_ttl {V : Type} (c : Cache V) (k : String) (v : V) (t0 t : Int)
    (hwithin : t < t0 + c.ttl) :
    ((c.set t0 k v).get t k = some v) ∧
    (∀ (c' : Cache V) (key : String) (now : Int),
      c'.items.lookup key = none → c'.get now key = none) ∧
    (∀ (c' : Cache V) (key : String) (now : Int) (it : CacheItem V),
      c'.items.lookup key = some it → it.expiresAt < now → c'.get now key = none) := by
  refine ⟨?_, ?_, ?_⟩
  · have hlk := lookup_mapInsert_self k
      ({ value := v, expiresAt := t0 + c.ttl } : CacheItem V) c.items
    have hle : ¬ (t > t0 + c.ttl) := by omega
    simp [Cache.get, Cache.set, hlk, hle]
  · intro c' key now h
    simp [Cache.get, h]
  · intro c' key now it h hexp
    have : now > it.expiresAt := hexp
    simp [Cache.get, h, this]

/-- Witness for `cache_set_get_ttl` at a concrete cache: TTL 10, set at time 0,
read at time 3. -/
theorem cache_set_get_ttl_witness :
    ((3 : Int) < 0 + (Cache.new Nat 10).ttl) ∧
    ((Cache.new Nat 10).set 0 "k" 7).get 3 "k" = some 7 :=
  ⟨by decide, (cache_set_get_ttl (Cache.new Nat 10) "k" 7 0 3 (by decide)).1⟩

/-- C1 counterexample: the claim as stated requires a miss when the current
time is at (not only after) the entry's expiration.  With TTL 10 and a `Set`
at time 0 the entry expires at time 10, yet `Get` at exactly time 10 still
returns the value, because the code misses only when `time.Now()` is strictly
`After` the expiration. -/
theorem cache_get_at_expiration_counterexample :
    ((Cache.new Nat 10).set 0 "k" 7).get 10 "k" = some 7 ∧
    (0 : Int) + (Cache.new Nat 10).ttl ≤ 10 := by
  decide

/-- C10: amended close contract.  A first `Close` on a not-yet-closed cache
succeeds, after which a sweep tick leaves the cache unchanged (the cleanup
goroutine has returned); a second `Close` panics (double close of the `stop`
channel), modelled as `none` — it is neither a no-op nor an error return. -/
theorem cache_close_once {V : Type} (c : Cache V) (now : Int)
    (h : c.stopClosed = false) :
    c.close = some { c with stopClosed := true } ∧
    ({ c with stopClosed := true } : Cache V).sweepTick now = { c with stopClosed := true } ∧
    ({ c with stopClosed := true } : Cache V).close = none := by
  refine ⟨?_, ?_, ?_⟩
  · simp [Cache.close, h]
  · simp [Cache.sweepTick]
  · simp [Cache.close]

/-- Witness for `cache_close_once` at a concrete fresh cache. -/
theorem cache_close_once_witness :
    (Cache.new Nat 10).stopClosed = false ∧
    (Cache.new Nat 10).close = some { Cache.new Nat 10 with stopClosed := true } ∧
    ({ Cache.new Nat 10 with stopClosed := true } : Cache Nat).sweepTick 5 =
      { Cache.new Nat 10 with stopClosed := true } ∧
    ({ Cache.new Nat 10 with stopClosed := true } : Cache Nat).close = none :=
  ⟨by decide, cache_close_once (Cache.new Nat 10) 5 (by decide)⟩

/-- C10 counterexample: the claim as stated says a second `Close` is a no-op
or an error; in the model the second `Close` is `none` (a Go panic from
closing an already-closed channel), while the first `Close` succeeds. -/
theorem cache_double_close_counterexample :
    (Cache.new Nat 10).close.bind Cache.close = none ∧
    ((Cache.new Nat 10).close).isSome = true := by
  decide

/- ### Distance function and geospatial stop index (internal/location) -/

/-- Mean Earth radius used by the distance function. -/
noncomputable def earthRadiusMeters : ℝ := 6371000

/-- Model of Go `math.Atan2 y x` over the reals. -/
noncomputable def atan2 (y x : ℝ) : ℝ :=
  if 0 < x then Real.arctan (y / x)
  else if x < 0 then
    (if 0 ≤ y then Real.arctan (y / x) + Real.pi else Real.arctan (y / x) - Real.pi)
  else if 0 < y then Real.pi / 2
  else if y < 0 then -(Real.pi / 2)
  else 0

/-- Intermediate value `a` of the Haversine formula, as computed in
`Haversine`: `sin²(Δlat/2) + cos(lat1)·cos(lat2)·sin²(Δlng/2)` with angles in
radians. -/
noncomputable def havA (lat1 lng1 lat2 lng2 : ℝ) : ℝ :=
  Real.sin ((lat2 - lat1) * Real.pi / 180 / 2) * Real.sin ((lat2 - lat1) * Real.pi / 180 / 2) +
    Real.cos (lat1 * Real.pi / 180) * Real.cos (lat2 * Real.pi / 180) *
      (Real.sin ((lng2 - lng1) * Real.pi / 180 / 2) * Real.sin ((lng2 - lng1) * Real.pi / 180 / 2))

/-- Model of `location.Haversine`: great-circle distance in meters,
`R · 2 · atan2(√a, √(1−a))`. -/
noncomputable def Haversine (lat1 lng1 lat2 lng2 : ℝ) : ℝ :=
  earthRadiusMeters *
    (2 * atan2 (Real.sqrt (havA lat1 lng1 lat2 lng2)) (Real.sqrt (1 - havA lat1 lng1 lat2 lng2)))

/-- Model of `location.MetersToMiles`. -/
noncomputable def MetersToMiles (meters : ℝ) : ℝ := meters / 1609.344

theorem havA_symm (lat1 lng1 lat2 lng2 : ℝ) :
    havA lat2 lng2 lat1 lng1 = havA lat1 lng1 lat2 lng2 := by
  unfold havA
  have h1 : (lat1 - lat2) * Real.pi / 180 / 2 = -((lat2 - lat1) * Real.pi / 180 / 2) := by ring
  have h2 : (lng1 - lng2) * Real.pi / 180 / 2 = -((lng2 - lng1) * Real.pi / 180 / 2) := by ring
  rw [h1, h2]
  simp only [Real.sin_neg]
  ring

theorem havA_self (lat lng : ℝ) : havA lat lng lat lng = 0 := by
  unfold havA
  simp [sub_self]

/-- C7: the distance function is symmetric, vanishes on equal coordinates,
and uses mean Earth radius 6,371,000 m. -/
theorem haversine_symm_zero_radius (lat1 lng1 lat2 lng2 lat lng : ℝ) :
    Haversine lat1 lng1 lat2 lng2 = Haversine lat2 lng2 lat1 lng1 ∧
    Haversine lat lng lat lng = 0 ∧
    earthRadiusMeters = 6371000 := by
  refine ⟨?_, ?_, rfl⟩
  · unfold Haversine
    rw [havA_symm]
  · unfold Haversine
    rw [havA_self]
    have h01 : (0 : ℝ) < 1 := one_pos
    simp [atan2, Real.sqrt_zero, Real.sqrt_one, h01, Real.arctan_zero]

/-- Model of `models.Stop`. -/
structure Stop where
  id : String
  name : String
  lat : ℝ
  lng : ℝ
  locationType : Int
  parentStation : String

/-- Model of `models.StopWithDistance`: a stop plus per-query distances. -/
structure StopWithDistance where
  stop : Stop
  distanceMeters : ℝ
  distanceMiles : ℝ

/-- Comparison used by the `sort.Slice` calls in `FindNearby`/`FindClosest`:
order by `DistanceMeters`. -/
def distLE (a b : StopWithDistance) : Prop := a.distanceMeters ≤ b.distanceMeters

instance : IsTotal StopWithDistance distLE :=
  ⟨fun a b => le_total a.distanceMeters b.distanceMeters⟩

instance : IsTrans StopWithDistance distLE :=
  ⟨fun _ _ _ hab hbc => le_trans hab hbc⟩

noncomputable instance : DecidableRel distLE :=
  fun _ _ => Real.decidableLE _ _

/-- A stop annotated with its Haversine distance from the query point, as
built inside the loops of `FindNearby` and `FindClosest`. -/
noncomputable def withDistance (lat lng : ℝ) (stop : Stop) : StopWithDistance :=
  { stop := stop
    distanceMeters := Haversine lat lng stop.lat stop.lng
    distanceMiles := MetersToMiles (Haversine lat lng stop.lat stop.lng) }

/-- Loop body of `StopService.FindNearby`: skip non-parent stations
(`location_type != 1`), keep a stop when its distance is `≤ radiusMeters`. -/
noncomputable def nearbyCandidate (lat lng radiusMeters : ℝ) (stop : Stop) :
    Option StopWithDistance :=
  if stop.locationType ≠ 1 then none
  else if Haversine lat lng stop.lat stop.lng ≤ radiusMeters then
    some (withDistance lat lng stop)
  else none

/-- Loop body of `StopService.FindClosest`: skip non-parent stations, keep
every parent station with its distance (no radius filter). -/
noncomputable def closestCandidate (lat lng : ℝ) (stop : Stop) : Option StopWithDistance :=
  if stop.locationType ≠ 1 then none else some (withDistance lat lng stop)

/-- Model of `StopService.FindNearby`: filter then sort by distance. -/
noncomputable def FindNearby (stops : List Stop) (lat lng radiusMeters : ℝ) :
    List StopWithDistance :=
  List.insertionSort distLE (stops.filterMap (nearbyCandidate lat lng radiusMeters))

/-- Model of `StopService.FindClosest`: all parent stations sorted by
distance, truncated to `limit` when `0 < limit < len(results)`. -/
noncomputable def FindClosest (stops : List Stop) (lat lng : ℝ) (limit : Int) :
    List StopWithDistance :=
  let results := List.insertionSort distLE (stops.filterMap (closestCandidate lat lng))
  if 0 < limit ∧ limit < (results.length : Int) then results.take limit.toNat else results

/-- Model of `StopService.ParentStationCount`: number of loaded stops with
`location_type == 1`. -/
def parentStationCount (stops : List Stop) : Nat :=
  stops.countP (fun s => s.locationType == 1)

theorem length_closestCandidates (lat lng : ℝ) :
    ∀ stops : List Stop,
      (stops.filterMap (closestCandidate lat lng)).length = parentStationCount stops := by
  intro stops
  induction stops with
  | nil => simp [parentStationCount]
  | cons s t ih =>
    by_cases h : s.locationType = 1
    · simp [List.filterMap_cons, closestCandidate, h, parentStationCount, List.countP_cons] at ih ⊢
      exact ih
    · simp [List.filterMap_cons, closestCandidate, h, parentStationCount, List.countP_cons] at ih ⊢
      exact ih

/-- C4: every result of `FindNearby` is a parent station whose distance is
within the requested radius, and the result list is sorted by distance. -/
theorem findNearby_parent_radius_sorted (stops : List Stop) (lat lng radiusMeters : ℝ) :
    ((FindNearby stops lat lng radiusMeters).Forall fun x =>
        x.stop.locationType = 1 ∧ x.distanceMeters ≤ radiusMeters) ∧
    (FindNearby stops lat lng radiusMeters).Sorted distLE := by
  constructor
  · rw [List.forall_iff_forall_mem]
    intro x hx
    unfold FindNearby at hx
    rw [List.mem_insertionSort, List.mem_filterMap] at hx
    obtain ⟨s, _, hf⟩ := hx
    by_cases h1 : s.locationType ≠ 1
    · simp [nearbyCandidate, h1] at hf
    · by_cases h2 : Haversine lat lng s.lat s.lng ≤ radiusMeters
      · simp only [nearbyCandidate, h1, if_false, h2, if_true, Option.some.injEq] at hf
        subst hf
        exact ⟨not_not.mp h1, h2⟩
      · simp [nearbyCandidate, h1, h2] at hf
  · exact List.sorted_insertionSort distLE _

/-- C5: `FindClosest` returns `min(limit, totalParentStops)` entries when
`limit > 0` and all parent stations otherwise; when `limit ≤ 0` or `limit` is
at least the result count it returns the full sorted result (the same list as
the `limit = 0` call); and the `limit`-call is a prefix of the call with
`limit = totalParentStops`. -/
theorem findClosest_cap_and_full (stops : List Stop) (lat lng : ℝ) (limit : Int) :
    ((FindClosest stops lat lng limit).length =
      if 0 < limit then min limit.toNat (parentStationCount stops)
      else parentStationCount stops) ∧
    ((limit ≤ 0 ∨ (parentStationCount stops : Int) ≤ limit) →
      FindClosest stops lat lng limit = FindClosest stops lat lng 0) ∧
    (FindClosest stops lat lng limit <+:
      FindClosest stops lat lng (parentStationCount stops : Int)) := by
  have hlen : (List.insertionSort distLE (stops.filterMap (closestCandidate lat lng))).length =
      parentStationCount stops := by
    rw [List.length_insertionSort, length_closestCandidates]
  refine ⟨?_, ?_, ?_⟩
  · unfold FindClosest
    by_cases hpos : 0 < limit
    · by_cases hlt : limit <
        ((List.insertionSort distLE (stops.filterMap (closestCandidate lat lng))).length : Int)
      · rw [if_pos ⟨hpos, hlt⟩, if_pos hpos, List.length_take, hlen]
      · rw [if_neg (fun hc => hlt hc.2), if_pos hpos, hlen]
        rw [hlen] at hlt
        omega
    · rw [if_neg (fun hc => hpos hc.1), if_neg hpos]
      exact hlen
  · intro hfull
    unfold FindClosest
    have hc1 : ¬ (0 < limit ∧ limit <
        ((List.insertionSort distLE (stops.filterMap (closestCandidate lat lng))).length : Int)) := by
      rw [hlen]
      omega
    have hc0 : ¬ ((0 : Int) < 0 ∧ (0 : Int) <
        ((List.insertionSort distLE (stops.filterMap (closestCandidate lat lng))).length : Int)) := by
      omega
    rw [if_neg hc1, if_neg hc0]
  · unfold FindClosest
    have hcN : ¬ ((0 : Int) < (parentStationCount stops : Int) ∧ (parentStationCount stops : Int) <
        ((List.insertionSort distLE (stops.filterMap (closestCandidate lat lng))).length : Int)) := by
      rw [hlen]
      omega
    rw [if_neg hcN]
    by_cases hc : 0 < limit ∧ limit <
        ((List.insertionSort distLE (stops.filterMap (closestCandidate lat lng))).length : Int)
    · rw [if_pos hc]
      exact List.take_prefix _ _
    · rw [if_neg hc]

/-- Concrete parent station used in witnesses. -/
def stopA : Stop :=
  { id := "S1", name := "Alpha", lat := 1, lng := 2, locationType := 1, parentStation := "" }

/-- Witness for `findClosest_cap_and_full`: one parent station, with a
limit equal to the parent-station count, returns the full result. -/
theorem findClosest_cap_and_full_witness :
    ((1 : Int) ≤ 0 ∨ (parentStationCount [stopA] : Int) ≤ 1) ∧
    FindClosest [stopA] 0 0 1 = FindClosest [stopA] 0 0 0 := by
  have hcount : parentStationCount [stopA] = 1 := by
    simp [parentStationCount, stopA]
  have h : (1 : Int) ≤ 0 ∨ (parentStationCount [stopA] : Int) ≤ 1 := by
    right
    rw [hcount]
    omega
  exact ⟨h, (findClosest_cap_and_full [stopA] 0 0 1).2.1 h⟩

/- ### GTFS-realtime feed model (shared by the rail aggregator and alerts) -/

/-- Character-list prefix test; `listIsPre pre l` holds when `pre` is a prefix
of `l`. -/
def listIsPre : List Char → List Char → Bool
  | [], _ => true
  | _ :: _, [] => false
  | a :: as, b :: bs => a = b && listIsPre as bs

/-- Model of Go `strings.HasPrefix s pre`. -/
def strStartsWith (s pre : String) : Bool := listIsPre pre.data s.data

/-- Model of Go `strings.HasSuffix s suf`. -/
def strEndsWith (s suf : String) : Bool := listIsPre suf.data.reverse s.data.reverse

/-- Model of Go `strings.ToUpper` (ASCII is all this program feeds it). -/
def strToUpper (s : String) : String := ⟨s.data.map Char.toUpper⟩

/-- Model of a GTFS-rt stop-time update.  The protobuf getters return `0`
when the arrival or departure message is absent, so absence is encoded as
`0`, exactly as the Go code observes it. -/
structure StopTimeUpdate where
  stopId : String
  arrival : Int
  departure : Int
deriving DecidableEq

/-- Model of a GTFS-rt trip update: `GetTrip().GetRouteId()` plus its
stop-time updates. -/
structure TripUpdate where
  routeId : String
  stopTimeUpdate : List StopTimeUpdate
deriving DecidableEq

/-- Model of a GTFS-rt active-period window; `GetStart`/`GetEnd` return `0`
when absent, and `end = 0` is the open-ended marker. -/
structure TimeRange where
  startTime : Int
  endTime : Int
deriving DecidableEq

/-- Model of a GTFS-rt informed-entity selector (only the route id is read). -/
structure EntitySelector where
  routeId : String
deriving DecidableEq

/-- Model of one translation of a GTFS-rt translated string. -/
structure Translation where
  language : String
  text : String
deriving DecidableEq

/-- Model of a GTFS-rt alert.  A nil `TranslatedString` is modelled as the
empty translation list, matching the nil-tolerant getters. -/
structure Alert where
  activePeriod : List TimeRange
  informedEntity : List EntitySelector
  headerText : List Translation
  descriptionText : List Translation
deriving DecidableEq

/-- Model of a GTFS-rt feed entity: optional trip update, optional alert. -/
structure FeedEntity where
  id : String
  tripUpdate : Option TripUpdate
  alert : Option Alert
deriving DecidableEq

/-- Model of a GTFS-rt feed message. -/
structure FeedMessage where
  entity : List FeedEntity
deriving DecidableEq

/- ### Rail feed aggregator (SubwayService) -/

/-- Model of an upcoming train arrival (`transit.Arrival`). -/
structure Arrival where
  route : String
  stopId : String
  direction : String
  arrivalTime : Int
  minutesAway : Int
deriving DecidableEq

/-- Keys of the `feedURLs` map, in source order. -/
def feedURLKeys : List String := ["ace", "bdfm", "g", "jz", "nqrw", "l", "1234567", "si"]

/-- The `routeToFeed` table mapping route letters to their feed group. -/
def routeToFeed : List (String × String) :=
  [("A", "ace"), ("C", "ace"), ("E", "ace"),
   ("B", "bdfm"), ("D", "bdfm"), ("F", "bdfm"), ("M", "bdfm"),
   ("G", "g"),
   ("J", "jz"), ("Z", "jz"),
   ("N", "nqrw"), ("Q", "nqrw"), ("R", "nqrw"), ("W", "nqrw"),
   ("L", "l"),
   ("1", "1234567"), ("2", "1234567"), ("3", "1234567"), ("4", "1234567"),
   ("5", "1234567"), ("6", "1234567"), ("7", "1234567"),
   ("SI", "si")]

/-- Direction classification from the stop-id suffix convention. -/
def directionOf (stopID : String) : String :=
  if strEndsWith stopID "N" then "northbound"
  else if strEndsWith stopID "S" then "southbound"
  else "unknown"

/-- One iteration of the stop-time-update loop in
`SubwayService.parseArrivals`: filter by stop-id prefix, resolve the time
from arrival falling back to departure, discard entries with neither or with
a resolved time strictly before `now`. -/
def processStopTimeUpdate (routeID filterStopID : String) (now : Int)
    (stu : StopTimeUpdate) : Option Arrival :=
  if filterStopID != "" && !strStartsWith stu.stopId filterStopID then none
  else
    let t := if stu.arrival = 0 then stu.departure else stu.arrival
    if t = 0 then none
    else if t < now then none
    else some { route := routeID, stopId := stu.stopId, direction := directionOf stu.stopId,
                arrivalTime := t, minutesAway := (t - now) / 60 }

/-- Model of `SubwayService.parseArrivals`: entities without a trip update
are skipped; each trip update contributes its qualifying stop-time updates. -/
def parseArrivals (feed : FeedMessage) (filterStopID : String) (now : Int) : List Arrival :=
  feed.entity.flatMap fun ent =>
    match ent.tripUpdate with
    | none => []
    | some tu => tu.stopTimeUpdate.filterMap (processStopTimeUpdate tu.routeId filterStopID now)

/-- Model of `SubwayService.getFeedsForRoutes`: all feed groups when no route
is given, otherwise the deduplicated feed groups of the recognized routes. -/
def getFeedsForRoutes (routes : List String) : List String :=
  if routes.isEmpty then feedURLKeys
  else routes.foldl (fun acc route =>
    match routeToFeed.lookup (strToUpper route) with
    | some feed => if acc.contains feed then acc else acc ++ [feed]
    | none => acc) []

/-- Model of `SubwayService.fetchFeed`.  The environment `env` stands for
fetching and protobuf-decoding one feed group, covering both upstream fetch
errors and decode errors as `Except.error`. -/
def fetchFeed (env : String → Except String FeedMessage) (feedName filterStopID : String)
    (now : Int) : Except String (List Arrival) :=
  if feedURLKeys.contains feedName then
    match env feedName with
    | .error e => .error e
    | .ok feed => .ok (parseArrivals feed filterStopID now)
  else .error "unknown feed"

/-- Skip-on-error step of the aggregation loops: a feed group that fails
contributes nothing; a feed group that succeeds contributes its arrivals. -/
def feedArrivalsOrEmpty (env : String → Except String FeedMessage)
    (feedName filterStopID : String) (now : Int) : List Arrival :=
  match fetchFeed env feedName filterStopID now with
  | .error _ => []
  | .ok arrivals => arrivals

/-- Ordering used by the `sort.Slice` calls: by arrival time. -/
def Arrival.timeLE (a b : Arrival) : Prop := a.arrivalTime ≤ b.arrivalTime

instance : IsTotal Arrival Arrival.timeLE :=
  ⟨fun a b => le_total a.arrivalTime b.arrivalTime⟩

instance : IsTrans Arrival Arrival.timeLE :=
  ⟨fun _ _ _ hab hbc => le_trans hab hbc⟩

instance : DecidableRel Arrival.timeLE :=
  fun a b => Int.decLe a.arrivalTime b.arrivalTime

/-- Model of `sortArrivals` / the `sort.Slice` on arrivals. -/
def sortArrivals (arrivals : List Arrival) : List Arrival :=
  List.insertionSort Arrival.timeLE arrivals

/-- Model of `SubwayService.GetArrivals`: fetch the feed groups for the
requested routes, skip failed feed groups, merge and sort ascending by
arrival time.  The error result is never used. -/
def GetArrivals (env : String → Except String FeedMessage) (stopID : String)
    (routes : List String) (now : Int) : Except String (List Arrival) :=
  let feeds := getFeedsForRoutes routes
  .ok (sortArrivals (feeds.flatMap fun feedName => feedArrivalsOrEmpty env feedName stopID now))

/-- Model of `transit.StationArrivals`.  This code path populates only the
stop id and the two direction lists; the remaining Go fields stay zero. -/
structure StationArrivals where
  stopId : String
  northbound : List Arrival
  southbound : List Arrival
deriving DecidableEq

/-- Cap on the number of stations queried per request (`maxSubwayStops`). -/
def maxSubwayStops : Nat := 5

/-- Model of `SubwayService.GetArrivalsForStations`: cap the requested ids,
build the set of direction-suffixed ids, fetch every feed group skipping
failures, bucket matching arrivals, and per station sort each direction and
cap it to 5. -/
def GetArrivalsForStations (env : String → Except String FeedMessage)
    (stopIDs : List String) (now : Int) : Except String (List StationArrivals) :=
  if stopIDs.isEmpty then .ok []
  else
    let ids := stopIDs.take maxSubwayStops
    let stopSet := ids.flatMap fun id => [id ++ "N", id ++ "S"]
    let matched := feedURLKeys.flatMap fun feedName =>
      (feedArrivalsOrEmpty env feedName "" now).filter fun a => stopSet.contains a.stopId
    .ok (ids.map fun stopID =>
      { stopId := stopID
        northbound := (sortArrivals (matched.filter fun a => a.stopId == stopID ++ "N")).take 5
        southbound := (sortArrivals (matched.filter fun a => a.stopId == stopID ++ "S")).take 5 })

instance {E A : Type} [DecidableEq E] [DecidableEq A] : DecidableEq (Except E A) := fun x y =>
  match x, y with
  | .error e, .error f =>
    if h : e = f then .isTrue (congrArg Except.error h)
    else .isFalse fun hc => h (by injection hc)
  | .ok a, .ok b =>
    if h : a = b then .isTrue (congrArg Except.ok h)
    else .isFalse fun hc => h (by injection hc)
  | .error _, .ok _ => .isFalse fun hc => Except.noConfusion hc
  | .ok _, .error _ => .isFalse fun hc => Except.noConfusion hc

theorem parseArrivals_mem (feed : FeedMessage) (filterStopID : String) (now : Int)
    (a : Arrival) (ha : a ∈ parseArrivals feed filterStopID now) :
    ¬ a.arrivalTime < now ∧
    ∃ tu stu, (∃ ent ∈ feed.entity, ent.tripUpdate = some tu) ∧
      stu ∈ tu.stopTimeUpdate ∧ a.stopId = stu.stopId ∧
      ((stu.arrival ≠ 0 ∧ a.arrivalTime = stu.arrival) ∨
       (stu.arrival = 0 ∧ stu.departure ≠ 0 ∧ a.arrivalTime = stu.departure)) := by
  unfold parseArrivals at ha
  rw [List.mem_flatMap] at ha
  obtain ⟨ent, hent, hmem⟩ := ha
  cases htu : ent.tripUpdate with
  | none => rw [htu] at hmem; simp at hmem
  | some tu =>
    rw [htu] at hmem
    rw [List.mem_filterMap] at hmem
    obtain ⟨stu, hstu, hproc⟩ := hmem
    by_cases hfil : (filterStopID != "" && !strStartsWith stu.stopId filterStopID) = true
    · simp [processStopTimeUpdate, hfil] at hproc
    · by_cases ha0 : stu.arrival = 0
      · by_cases hd0 : stu.departure = 0
        · simp [processStopTimeUpdate, hfil, ha0, hd0] at hproc
        · by_cases hlt : stu.departure < now
          · simp [processStopTimeUpdate, hfil, ha0, hd0, hlt] at hproc
          · simp only [processStopTimeUpdate, hfil, if_false, Bool.false_eq_true, ha0, if_true,
              hd0, hlt, if_neg, Option.some.injEq] at hproc
            subst hproc
            exact ⟨hlt, tu, stu, ⟨ent, hent, htu⟩, hstu, rfl, Or.inr ⟨ha0, hd0, rfl⟩⟩
      · by_cases hlt : stu.arrival < now
        · simp [processStopTimeUpdate, hfil, ha0, hlt] at hproc
        · simp only [processStopTimeUpdate, hfil, if_false, Bool.false_eq_true, ha0, if_false,
            hlt, if_neg, Option.some.injEq] at hproc
          subst hproc
          exact ⟨hlt, tu, stu, ⟨ent, hent, htu⟩, hstu, rfl, Or.inl ⟨ha0, rfl⟩⟩

theorem getArrivals_ok (env : String → Except String FeedMessage) (stopID : String)
    (routes : List String) (now : Int) (l : List Arrival)
    (h : GetArrivals env stopID routes now = .ok l) :
    (∀ a ∈ l, ¬ a.arrivalTime < now) ∧ l.Sorted Arrival.timeLE := by
  have hl : l = sortArrivals ((getFeedsForRoutes routes).flatMap fun feedName =>
      feedArrivalsOrEmpty env feedName stopID now) := by
    simp only [GetArrivals, Except.ok.injEq] at h
    exact h.symm
  subst hl
  constructor
  · intro a ha
    rw [sortArrivals, List.mem_insertionSort, List.mem_flatMap] at ha
    obtain ⟨feedName, _, hmem⟩ := ha
    unfold feedArrivalsOrEmpty at hmem
    cases hf : fetchFeed env feedName stopID now with
    | error e => rw [hf] at hmem; simp at hmem
    | ok arrivals =>
      rw [hf] at hmem
      unfold fetchFeed at hf
      by_cases hknown : feedURLKeys.contains feedName = true
      · cases he : env feedName with
        | error e => rw [if_pos hknown, he] at hf; cases hf
        | ok feed =>
          rw [if_pos hknown, he] at hf
          cases hf
          exact (parseArrivals_mem feed stopID now a hmem).1
      · rw [if_neg hknown] at hf
        cases hf
  · exact List.sorted_insertionSort Arrival.timeLE _

/-- C3: an arrival decoded from a rail feed resolves its time from the
arrival field, falling back to the departure field when arrival is absent;
entries with neither time, and entries with a resolved time strictly before
`now`, are discarded; and every list returned by `GetArrivals` contains no
arrival before `now` and is sorted ascending by arrival time. -/
theorem rail_time_resolution_no_past_sorted :
    (∀ (feed : FeedMessage) (filterStopID : String) (now : Int) (a : Arrival),
      a ∈ parseArrivals feed filterStopID now →
        ¬ a.arrivalTime < now ∧
        ∃ tu stu, (∃ ent ∈ feed.entity, ent.tripUpdate = some tu) ∧
          stu ∈ tu.stopTimeUpdate ∧ a.stopId = stu.stopId ∧
          ((stu.arrival ≠ 0 ∧ a.arrivalTime = stu.arrival) ∨
           (stu.arrival = 0 ∧ stu.departure ≠ 0 ∧ a.arrivalTime = stu.departure))) ∧
    (∀ (env : String → Except String FeedMessage) (stopID : String) (routes : List String)
      (now : Int) (l : List Arrival), GetArrivals env stopID routes now = .ok l →
        (∀ a ∈ l, ¬ a.arrivalTime < now) ∧ l.Sorted Arrival.timeLE) :=
  ⟨fun feed filterStopID now a ha => parseArrivals_mem feed filterStopID now a ha,
   fun env stopID routes now l h => getArrivals_ok env stopID routes now l h⟩

/-- Feed used in concrete scenarios: one trip on route J with one stop-time
update at stop `J15N`, arrival time 500. -/
def feedJ : FeedMessage :=
  { entity := [{ id := "e1"
                 tripUpdate := some { routeId := "J"
                                      stopTimeUpdate := [{ stopId := "J15N", arrival := 500,
                                                           departure := 0 }] }
                 alert := none }] }

/-- Scenario environment: the `ace` feed group fails (simulated timeout), the
`jz` feed group succeeds with one qualifying arrival, all others are empty. -/
def envScenario : String → Except String FeedMessage := fun feedName =>
  if feedName = "ace" then .error "timeout"
  else if feedName = "jz" then .ok feedJ
  else .ok { entity := [] }

/-- The arrival decoded from `feedJ` at `now = 100`. -/
def arrJ : Arrival :=
  { route := "J", stopId := "J15N", direction := "northbound", arrivalTime := 500,
    minutesAway := 6 }

/-- Witness for `rail_time_resolution_no_past_sorted`: the decoded arrival of
`feedJ` is not in the past, and the concrete `GetArrivals` result is sorted. -/
theorem rail_time_resolution_no_past_sorted_witness :
    (arrJ ∈ parseArrivals feedJ "" 100 ∧ ¬ arrJ.arrivalTime < 100) ∧
    (GetArrivals envScenario "" [] 100 = .ok [arrJ] ∧
      ([arrJ] : List Arrival).Sorted Arrival.timeLE) :=
  ⟨⟨by decide, (rail_time_resolution_no_past_sorted.1 feedJ "" 100 arrJ (by decide)).1⟩,
   ⟨by decide, (rail_time_resolution_no_past_sorted.2 envScenario "" [] 100 [arrJ]
      (by decide)).2⟩⟩

/-- C2: a failed feed group never aborts the aggregate — both `GetArrivals`
and `GetArrivalsForStations` always return a success — and in the concrete
scenario where the `ace` feed group times out while `jz` yields one
qualifying arrival, `GetArrivalsForStations ["J15"]` returns exactly that
arrival with no error. -/
theorem rail_skip_failed_feed_groups (env : String → Except String FeedMessage)
    (stopIDs : List String) (stopID : String) (routes : List String) (now : Int) :
    (∃ r, GetArrivalsForStations env stopIDs now = .ok r) ∧
    (∃ l, GetArrivals env stopID routes now = .ok l) ∧
    GetArrivalsForStations envScenario ["J15"] 100 =
      .ok [{ stopId := "J15", northbound := [arrJ], southbound := [] }] := by
  refine ⟨?_, ⟨_, rfl⟩, by decide⟩
  unfold GetArrivalsForStations
  split
  · exact ⟨_, rfl⟩
  · exact ⟨_, rfl⟩

/- ### Bus arrival decoding (BusService) -/

/-- Model of a decoded JSON value as stored in a Go `any` field: a string, a
list, or something else. -/
inductive JsonValue where
  | str (s : String)
  | arr (elems : List JsonValue)
  | other

/-- Model of `getFirstString`: a string is returned as is; for a list, the
first element is returned when it is a string; everything else is `""`. -/
def getFirstString : JsonValue → String
  | .str s => s
  | .arr (first :: _) =>
    match first with
    | .str s => s
    | _ => ""
  | _ => ""

/-- Model of the `MonitoredCall` payload; zero time values model Go's
`time.Time.IsZero`, and the optional extension fields model the pointers. -/
structure MonitoredCall where
  expectedArrivalTime : Int
  expectedDepartureTime : Int
  stopsFromCall : Option Int
  distanceFromCall : Option Int

/-- Model of `monitoredVehicleJourney`: the line-name and destination fields
are dynamic (`any`) upstream. -/
structure MonitoredVehicleJourney where
  publishedLineName : JsonValue
  destinationName : JsonValue
  monitoredCall : MonitoredCall

/-- Model of `transit.BusArrival`. -/
structure BusArrival where
  route : String
  destination : String
  stopId : String
  stopName : String
  stopsAway : Int
  feet : Int
  expectedArrival : Int
  minutesAway : Int

/-- Model of `siriResponse` down to the visit list: the outer delivery list,
each delivery holding monitored vehicle journeys. -/
structure SiriResponse where
  stopMonitoringDelivery : List (List MonitoredVehicleJourney)

/-- Model of `BusService.parseArrivals`: empty delivery yields nothing;
each visit resolves an expected time (arrival falling back to departure),
visits with neither are skipped, route/destination go through
`getFirstString`, and the extension fields default to zero. -/
def busParseArrivals (resp : SiriResponse) (stopID : String) (now : Int) : List BusArrival :=
  match resp.stopMonitoringDelivery with
  | [] => []
  | delivery0 :: _ =>
    delivery0.filterMap fun journey =>
      let expectedTime := if journey.monitoredCall.expectedArrivalTime = 0
        then journey.monitoredCall.expectedDepartureTime
        else journey.monitoredCall.expectedArrivalTime
      if expectedTime = 0 then none
      else some { route := getFirstString journey.publishedLineName
                  destination := getFirstString journey.destinationName
                  stopId := stopID
                  stopName := ""
                  stopsAway := journey.monitoredCall.stopsFromCall.getD 0
                  feet := journey.monitoredCall.distanceFromCall.getD 0
                  expectedArrival := expectedTime
                  minutesAway := (expectedTime - now) / 60 }

/-- C8: route and destination fields decode to the same string whether the
upstream value is a single string or a list with that string first; in
particular `"M34"` and `["M34"]` both decode to route `"M34"`, and the whole
decoded arrival is identical in the two representations. -/
theorem bus_route_string_or_list (s : String) (rest : List JsonValue) (dn : JsonValue)
    (call : MonitoredCall) (stopID : String) (now : Int) :
    getFirstString (.str s) = s ∧
    getFirstString (.arr (.str s :: rest)) = s ∧
    busParseArrivals
        { stopMonitoringDelivery :=
            [[{ publishedLineName := .str s, destinationName := dn, monitoredCall := call }]] }
        stopID now =
      busParseArrivals
        { stopMonitoringDelivery :=
            [[{ publishedLineName := .arr (.str s :: rest), destinationName := dn,
                monitoredCall := call }]] }
        stopID now ∧
    getFirstString (.str "M34") = "M34" ∧
    getFirstString (.arr [.str "M34"]) = "M34" := by
  refine ⟨rfl, rfl, ?_, rfl, rfl⟩
  unfold busParseArrivals
  simp only [List.filterMap, getFirstString]

/- ### Alert aggregator (AlertService) -/

/-- Model of `transit.ServiceAlert`. -/
structure ServiceAlert where
  id : String
  routes : List String
  header : String
  description : String
deriving DecidableEq

/-- Model of `translatedText`: the first translation whose language is `en`
or empty; otherwise the first translation; otherwise the empty string. -/
def translatedText (ts : List Translation) : String :=
  match ts.find? (fun t => t.language == "en" || t.language == "") with
  | some t => t.text
  | none =>
    match ts with
    | t :: _ => t.text
    | [] => ""

/-- Active-period classification of `AlertService.parseAlerts`: an alert is
active when it declares no windows, or `now` falls in a window, where an end
of `0` leaves the window open-ended. -/
def alertActive (alert : Alert) (now : Int) : Bool :=
  alert.activePeriod.isEmpty ||
    alert.activePeriod.any fun period =>
      now ≥ period.startTime && (period.endTime == 0 || now < period.endTime)

/-- Route deduplication of `parseAlerts`: keep each non-empty route id the
first time it appears. -/
def dedupRouteIds (ies : List EntitySelector) : List String :=
  ies.foldl (fun acc ie =>
    if ie.routeId ≠ "" ∧ ¬ acc.contains ie.routeId then acc ++ [ie.routeId] else acc) []

/-- Model of `AlertService.parseAlerts`: entities without an alert, inactive
alerts, and alerts with an empty header are skipped; the rest are
materialized with deduplicated routes and translated texts. -/
def parseAlerts (feed : FeedMessage) (now : Int) : List ServiceAlert :=
  feed.entity.filterMap fun ent =>
    match ent.alert with
    | none => none
    | some alert =>
      if !alertActive alert now then none
      else
        let routes := dedupRouteIds alert.informedEntity
        let header := translatedText alert.headerText
        if header = "" then none
        else some { id := ent.id, routes := routes, header := header,
                    description := translatedText alert.descriptionText }

/-- C9: an alert is classified active iff it declares no active-period
windows or `now` falls within at least one window, where a window with
`end = 0` is active at every time at or after its start; and every
materialized service alert has a non-empty header and comes from an entity
whose alert was classified active. -/
theorem alert_active_iff_and_materialization :
    (∀ (alert : Alert) (now : Int),
      alertActive alert now = true ↔
        (alert.activePeriod = [] ∨ ∃ p ∈ alert.activePeriod,
          p.startTime ≤ now ∧ (p.endTime = 0 ∨ now < p.endTime))) ∧
    (∀ (feed : FeedMessage) (now : Int) (sa : ServiceAlert), sa ∈ parseAlerts feed now →
      sa.header ≠ "" ∧ ∃ ent ∈ feed.entity, ∃ alert, ent.alert = some alert ∧
        alertActive alert now = true) := by
  constructor
  · intro alert now
    unfold alertActive
    simp [List.isEmpty_iff, List.any_eq_true, ge_iff_le, Bool.and_eq_true,
      decide_eq_true_eq, Bool.or_eq_true, beq_iff_eq]
  · intro feed now sa hsa
    unfold parseAlerts at hsa
    rw [List.mem_filterMap] at hsa
    obtain ⟨ent, hent, hproc⟩ := hsa
    cases hal : ent.alert with
    | none => rw [hal] at hproc; cases hproc
    | some alert =>
      rw [hal] at hproc
      by_cases hact : alertActive alert now = true
      · by_cases hhd : translatedText alert.headerText = ""
        · simp [hact, hhd] at hproc
        · simp only [hact, Bool.not_true, Bool.false_eq_true, if_false, hhd,
            Option.some.injEq] at hproc
          subst hproc
          exact ⟨hhd, ent, hent, alert, hal, hact⟩
      · simp [hact] at hproc

/-- Feed used in the alert witness: one alert with an open-ended window
starting at time 50, route J listed twice, an English header. -/
def alertFeed : FeedMessage :=
  { entity := [{ id := "al1"
                 tripUpdate := none
                 alert := some { activePeriod := [{ startTime := 50, endTime := 0 }]
                                 informedEntity := [{ routeId := "J" }, { routeId := "J" }]
                                 headerText := [{ language := "en", text := "delay" }]
                                 descriptionText := [] } }] }

/-- The service alert materialized from `alertFeed`. -/
def saJ : ServiceAlert := { id := "al1", routes := ["J"], header := "delay", description := "" }

/-- Witness for `alert_active_iff_and_materialization`: far in the future of
the open-ended window's start, the alert is materialized with a non-empty
header. -/
theorem alert_active_iff_and_materialization_witness :
    (saJ ∈ parseAlerts alertFeed 1000) ∧ saJ.header ≠ "" :=
  ⟨by decide, (alert_active_iff_and_materialization.2 alertFeed 1000 saJ (by decide)).1⟩
